import Mathlib

/-!
Shallow embedding of `src/main.rs` of system76-scheduler-niri: a bridge that
listens to niri compositor events and forwards the focused window's pid to the
System76 Scheduler over D-Bus.  The event loop, its window cache, and its
logging/error policy are modelled as pure functions over explicit event lists;
the notifier's success or failure is an oracle indexed by the call number.
-/

set_option maxHeartbeats 1000000

namespace SchedulerBridge

/-- A window record as delivered by niri (`niri_ipc::Window`): identifier
(`u64`, modelled as `Nat`), optional title, optional owning process id
(`Option<i32>`, modelled as `Option Int`). -/
structure Window where
  id : Nat
  title : Option String
  pid : Option Int
deriving Repr, DecidableEq

/-- The niri events the dispatcher distinguishes: `Event::WindowsChanged`
(full snapshot), `Event::WindowFocusChanged` (optional focused id), and all
other event kinds, which the loop ignores (`_ => ()`). -/
inductive Event where
  | windowsChanged (windows : List Window)
  | windowFocusChanged (id : Option Nat)
  | otherEvent
deriving Repr, DecidableEq

/-- The log messages the program can emit: `error!` when niri does not answer
`Handled` to the event-stream request, `error!` when the D-Bus
`set_foreground_process` call fails, and `info!` after a notifier call was
attempted (the source emits it outside the error branch). -/
inductive LogMsg where
  | errorStreamRequest
  | errorSetForeground
  | infoSetForeground (title : Option String) (pid : Int)
deriving Repr, DecidableEq

/-- `pid as u32` in Rust: the wrapping cast of an `i32` to a `u32`, i.e. the
value modulo `2 ^ 32`. -/
def toU32 (p : Int) : Nat := (p % (2 ^ 32 : Int)).toNat

/-- `windows.iter().find(|window| window.id == id)`. -/
def findWindow (windows : List Window) (id : Nat) : Option Window :=
  windows.find? (fun w => w.id == id)

/-- One iteration of the dispatcher loop body (`match event { ... }` in
`main`).  `ok` is the oracle telling whether the n-th D-Bus call succeeds and
`n` counts the notifier calls already made.  Returns the new window cache, the
pids passed to `set_foreground_process` during this iteration (in order), and
the log messages emitted. -/
def processEvent (ok : Nat → Bool) (n : Nat) (windows : List Window) :
    Event → List Window × List Nat × List LogMsg
  | Event.windowsChanged ws => (ws, [], [])
  | Event.windowFocusChanged (some id) =>
      match findWindow windows id with
      | some w =>
          match w.pid with
          | some pid =>
              (windows, [toU32 pid],
                (if ok n then [] else [LogMsg.errorSetForeground]) ++
                  [LogMsg.infoSetForeground w.title pid])
          | none => (windows, [], [])
      | none => (windows, [], [])
  | Event.windowFocusChanged none => (windows, [], [])
  | Event.otherEvent => (windows, [], [])

/-- The dispatcher loop `while let Ok(event) = read_event()`: the finite event
list models the stream up to the point where `read_event` returns `Err`
(end of stream).  Returns the final cache, all notifier-call pids in order,
and the log output. -/
def runLoop (ok : Nat → Bool) : List Window → Nat → List Event →
    List Window × List Nat × List LogMsg
  | ws, _, [] => (ws, [], [])
  | ws, n, e :: es =>
      ((runLoop ok (processEvent ok n ws e).1
          (n + (processEvent ok n ws e).2.1.length) es).1,
       (processEvent ok n ws e).2.1 ++
         (runLoop ok (processEvent ok n ws e).1
           (n + (processEvent ok n ws e).2.1.length) es).2.1,
       (processEvent ok n ws e).2.2 ++
         (runLoop ok (processEvent ok n ws e).1
           (n + (processEvent ok n ws e).2.1.length) es).2.2)

/-- niri's answer to the `Request::EventStream` message: `Response::Handled`
or any other response variant. -/
inductive Response where
  | handled
  | otherResponse
deriving Repr, DecidableEq

/-- `main` after the connections are established: `sendResult` is the result
of `socket.send(Request::EventStream)` (outer `Except` is the I/O error
propagated by `?`, inner is niri's `Reply`); then the subscription check, the
loop, and the final `Ok(())`.  Returns the process result, the notifier-call
pids, and the log output. -/
def mainRun (sendResult : Except String (Except String Response))
    (ok : Nat → Bool) (events : List Event) :
    Except String Unit × List Nat × List LogMsg :=
  match sendResult with
  | Except.error e => (Except.error e, [], [])
  | Except.ok reply =>
      (Except.ok (),
       (runLoop ok [] 0 events).2.1,
       (match reply with
        | Except.ok Response.handled => ([] : List LogMsg)
        | _ => [LogMsg.errorStreamRequest]) ++ (runLoop ok [] 0 events).2.2)

/-- The cache update a single event performs, ignoring calls and logs:
`windows = _windows` on a snapshot, unchanged otherwise. -/
def snapStep (acc : List Window) (e : Event) : List Window :=
  match e with
  | Event.windowsChanged ws => ws
  | _ => acc

/-- The window list of the most recently processed snapshot event, or `[]` if
none occurred. -/
def lastSnapshot (events : List Event) : List Window :=
  events.foldl snapStep []

theorem processEvent_windows (ok : Nat → Bool) (n : Nat) (ws : List Window)
    (e : Event) : (processEvent ok n ws e).1 = snapStep ws e := by
  cases e with
  | windowsChanged w => rfl
  | windowFocusChanged oid =>
      cases oid with
      | none => rfl
      | some i =>
          show (processEvent ok n ws (Event.windowFocusChanged (some i))).1 = ws
          cases hf : findWindow ws i with
          | none => simp [processEvent, hf]
          | some w =>
              cases hp : w.pid with
              | none => simp [processEvent, hf, hp]
              | some p => simp [processEvent, hf, hp]
  | otherEvent => rfl

theorem runLoop_windows (ok : Nat → Bool) :
    ∀ (es : List Event) (ws : List Window) (n : Nat),
      (runLoop ok ws n es).1 = es.foldl snapStep ws := by
  intro es
  induction es with
  | nil => intro ws n; rfl
  | cons e es ih =>
      intro ws n
      show (runLoop ok (processEvent ok n ws e).1
          (n + (processEvent ok n ws e).2.1.length) es).1 =
        es.foldl snapStep (snapStep ws e)
      rw [ih, processEvent_windows]

theorem processEvent_calls_indep (ok okk : Nat → Bool) (n m : Nat)
    (ws : List Window) (e : Event) :
    (processEvent ok n ws e).2.1 = (processEvent okk m ws e).2.1 := by
  cases e with
  | windowsChanged w => rfl
  | windowFocusChanged oid =>
      cases oid with
      | none => rfl
      | some i =>
          cases hf : findWindow ws i with
          | none => simp [processEvent, hf]
          | some w =>
              cases hp : w.pid with
              | none => simp [processEvent, hf, hp]
              | some p => simp [processEvent, hf, hp]
  | otherEvent => rfl

theorem runLoop_indep (ok okk : Nat → Bool) :
    ∀ (es : List Event) (ws : List Window) (n m : Nat),
      (runLoop ok ws n es).1 = (runLoop okk ws m es).1 ∧
      (runLoop ok ws n es).2.1 = (runLoop okk ws m es).2.1 := by
  intro es
  induction es with
  | nil => intro ws n m; exact ⟨rfl, rfl⟩
  | cons e es ih =>
      intro ws n m
      have hw : (processEvent ok n ws e).1 = (processEvent okk m ws e).1 := by
        rw [processEvent_windows, processEvent_windows]
      have hc : (processEvent ok n ws e).2.1 = (processEvent okk m ws e).2.1 :=
        processEvent_calls_indep ok okk n m ws e
      have hrest := ih (processEvent ok n ws e).1
        (n + (processEvent ok n ws e).2.1.length)
        (m + (processEvent ok n ws e).2.1.length)
      constructor
      · show (runLoop ok (processEvent ok n ws e).1
            (n + (processEvent ok n ws e).2.1.length) es).1 =
          (runLoop okk (processEvent okk m ws e).1
            (m + (processEvent okk m ws e).2.1.length) es).1
        rw [← hw, ← hc]
        exact hrest.1
      · show (processEvent ok n ws e).2.1 ++
            (runLoop ok (processEvent ok n ws e).1
              (n + (processEvent ok n ws e).2.1.length) es).2.1 =
          (processEvent okk m ws e).2.1 ++
            (runLoop okk (processEvent okk m ws e).1
              (m + (processEvent okk m ws e).2.1.length) es).2.1
        rw [← hw, ← hc]
        rw [hrest.2]

theorem runLoop_append (ok : Nat → Bool) :
    ∀ (es1 es2 : List Event) (ws : List Window) (n : Nat),
      (runLoop ok ws n (es1 ++ es2)).1 =
        (runLoop ok (runLoop ok ws n es1).1
          (n + (runLoop ok ws n es1).2.1.length) es2).1 ∧
      (runLoop ok ws n (es1 ++ es2)).2.1 =
        (runLoop ok ws n es1).2.1 ++
          (runLoop ok (runLoop ok ws n es1).1
            (n + (runLoop ok ws n es1).2.1.length) es2).2.1 := by
  intro es1
  induction es1 with
  | nil =>
      intro es2 ws n
      constructor
      · show (runLoop ok ws n es2).1 = (runLoop ok ws (n + 0) es2).1
        rw [Nat.add_zero]
      · show (runLoop ok ws n es2).2.1 =
          [] ++ (runLoop ok ws (n + 0) es2).2.1
        rw [Nat.add_zero, List.nil_append]
  | cons e es ih =>
      intro es2 ws n
      have h1 := ih es2 (processEvent ok n ws e).1
        (n + (processEvent ok n ws e).2.1.length)
      constructor
      · show (runLoop ok (processEvent ok n ws e).1
            (n + (processEvent ok n ws e).2.1.length) (es ++ es2)).1 =
          (runLoop ok (runLoop ok ws n (e :: es)).1
            (n + (runLoop ok ws n (e :: es)).2.1.length) es2).1
        rw [h1.1]
        show (runLoop ok
            (runLoop ok (processEvent ok n ws e).1
              (n + (processEvent ok n ws e).2.1.length) es).1
            (n + (processEvent ok n ws e).2.1.length +
              (runLoop ok (processEvent ok n ws e).1
                (n + (processEvent ok n ws e).2.1.length) es).2.1.length) es2).1 =
          (runLoop ok
            (runLoop ok (processEvent ok n ws e).1
              (n + (processEvent ok n ws e).2.1.length) es).1
            (n + ((processEvent ok n ws e).2.1 ++
              (runLoop ok (processEvent ok n ws e).1
                (n + (processEvent ok n ws e).2.1.length) es).2.1).length) es2).1
        rw [List.length_append, Nat.add_assoc]
      · show (processEvent ok n ws e).2.1 ++
            (runLoop ok (processEvent ok n ws e).1
              (n + (processEvent ok n ws e).2.1.length) (es ++ es2)).2.1 =
          ((processEvent ok n ws e).2.1 ++
            (runLoop ok (processEvent ok n ws e).1
              (n + (processEvent ok n ws e).2.1.length) es).2.1) ++
            (runLoop ok (runLoop ok ws n (e :: es)).1
              (n + (runLoop ok ws n (e :: es)).2.1.length) es2).2.1
        rw [h1.2, List.append_assoc]
        show (processEvent ok n ws e).2.1 ++
            ((runLoop ok (processEvent ok n ws e).1
              (n + (processEvent ok n ws e).2.1.length) es).2.1 ++
              (runLoop ok
                (runLoop ok (processEvent ok n ws e).1
                  (n + (processEvent ok n ws e).2.1.length) es).1
                (n + (processEvent ok n ws e).2.1.length +
                  (runLoop ok (processEvent ok n ws e).1
                    (n + (processEvent ok n ws e).2.1.length) es).2.1.length)
                es2).2.1) =
          (processEvent ok n ws e).2.1 ++
            ((runLoop ok (processEvent ok n ws e).1
              (n + (processEvent ok n ws e).2.1.length) es).2.1 ++
              (runLoop ok
                (runLoop ok (processEvent ok n ws e).1
                  (n + (processEvent ok n ws e).2.1.length) es).1
                (n + ((processEvent ok n ws e).2.1 ++
                  (runLoop ok (processEvent ok n ws e).1
                    (n + (processEvent ok n ws e).2.1.length) es).2.1).length)
                es2).2.1)
        rw [List.length_append, Nat.add_assoc]

theorem findWindow_sound (ws : List Window) (i : Nat) (w : Window)
    (h : findWindow ws i = some w) : w ∈ ws ∧ w.id = i := by
  refine ⟨List.mem_of_find?_eq_some h, ?_⟩
  have := List.find?_some h
  simpa using this

theorem findWindow_eq_none (ws : List Window) (i : Nat) :
    findWindow ws i = none ↔ ∀ w ∈ ws, w.id ≠ i := by
  unfold findWindow
  rw [List.find?_eq_none]
  simp

theorem findWindow_of_mem_nodup :
    ∀ (ws : List Window) (w : Window), (ws.map Window.id).Nodup → w ∈ ws →
      findWindow ws w.id = some w := by
  intro ws
  induction ws with
  | nil => intro w _ hm; cases hm
  | cons x xs ih =>
      intro w hnd hm
      rcases List.mem_cons.mp hm with h | h
      · subst h
        simp [findWindow]
      · have hnd2 : (∀ y ∈ xs, ¬y.id = x.id) ∧ (xs.map Window.id).Nodup := by
          simpa using hnd
        have hne : ¬(x.id == w.id) = true := by
          simp only [beq_iff_eq]
          intro he
          exact hnd2.1 w h he.symm
        have hfe : findWindow (x :: xs) w.id = findWindow xs w.id :=
          List.find?_cons_of_neg _ hne
        rw [hfe]
        exact ih w hnd2.2 h

theorem processEvent_no_stream_log (ok : Nat → Bool) (n : Nat)
    (ws : List Window) (e : Event) :
    LogMsg.errorStreamRequest ∉ (processEvent ok n ws e).2.2 := by
  cases e with
  | windowsChanged w => simp [processEvent]
  | windowFocusChanged oid =>
      cases oid with
      | none => simp [processEvent]
      | some i =>
          cases hf : findWindow ws i with
          | none => simp [processEvent, hf]
          | some w =>
              cases hp : w.pid with
              | none => simp [processEvent, hf, hp]
              | some p =>
                  cases hok : ok n <;> simp [processEvent, hf, hp, hok]
  | otherEvent => simp [processEvent]

theorem runLoop_no_stream_log (ok : Nat → Bool) :
    ∀ (es : List Event) (ws : List Window) (n : Nat),
      LogMsg.errorStreamRequest ∉ (runLoop ok ws n es).2.2 := by
  intro es
  induction es with
  | nil => intro ws n; simp [runLoop]
  | cons e es ih =>
      intro ws n
      show LogMsg.errorStreamRequest ∉
        (processEvent ok n ws e).2.2 ++
          (runLoop ok (processEvent ok n ws e).1
            (n + (processEvent ok n ws e).2.1.length) es).2.2
      rw [List.mem_append]
      push_neg
      exact ⟨processEvent_no_stream_log ok n ws e,
        ih (processEvent ok n ws e).1 (n + (processEvent ok n ws e).2.1.length)⟩

/-- C1: after processing any prefix of events from an empty cache, the window
cache equals the window list of the most recently processed snapshot event
(empty before the first snapshot), and a lookup by id over that list returns a
record of the snapshot bearing that id for every id present in it (with the
snapshot's ids unique, the matching record itself) and nothing for every id
absent from it — replacement is total, not additive. -/
theorem c1_cache_invariant (ok : Nat → Bool) (n : Nat) (es : List Event)
    (i : Nat) :
    (runLoop ok [] n es).1 = lastSnapshot es ∧
    (∀ w, findWindow (lastSnapshot es) i = some w →
      w ∈ lastSnapshot es ∧ w.id = i) ∧
    (findWindow (lastSnapshot es) i = none ↔
      ∀ w ∈ lastSnapshot es, w.id ≠ i) ∧
    (∀ w ∈ lastSnapshot es, ((lastSnapshot es).map Window.id).Nodup →
      w.id = i → findWindow (lastSnapshot es) i = some w) := by
  refine ⟨runLoop_windows ok es [] n, ?_, findWindow_eq_none _ i, ?_⟩
  · intro w hw
    exact findWindow_sound _ i w hw
  · intro w hw hnd hid
    have h := findWindow_of_mem_nodup (lastSnapshot es) w hnd hw
    rwa [hid] at h

/-- Witness for C1 at a concrete snapshot event and lookup id. -/
theorem c1_cache_invariant_witness :
    (runLoop (fun _ => true) [] 0
        [Event.windowsChanged [⟨1, none, some 5⟩]]).1 =
      lastSnapshot [Event.windowsChanged [⟨1, none, some 5⟩]] ∧
    findWindow (lastSnapshot [Event.windowsChanged [⟨1, none, some 5⟩]]) 1 =
      some ⟨1, none, some 5⟩ := by
  have h := c1_cache_invariant (fun _ => true) 0
    [Event.windowsChanged [⟨1, none, some 5⟩]] 1
  exact ⟨h.1, h.2.2.2 ⟨1, none, some 5⟩ (by decide) (by decide) rfl⟩

/-- C2: a focus-change event whose id resolves in the current cache to a
record with a present pid yields exactly one set_foreground_process call,
with that pid; in particular a cache from a snapshot holding id 7 with pid
1234 and a focus-change for 7 yield exactly one call with 1234. -/
theorem c2_focus_notifies (ok : Nat → Bool) (n : Nat) (ws : List Window)
    (i : Nat) (w : Window) (p : Int) (hf : findWindow ws i = some w)
    (hp : w.pid = some p) :
    (processEvent ok n ws (Event.windowFocusChanged (some i))).2.1 =
      [toU32 p] := by
  simp [processEvent, hf, hp]

/-- Witness for C2: snapshot record id 7, pid 1234; exactly one call, 1234. -/
theorem c2_focus_notifies_witness :
    (processEvent (fun _ => true) 0 [⟨7, none, some 1234⟩]
      (Event.windowFocusChanged (some 7))).2.1 = [1234] := by
  have h := c2_focus_notifies (fun _ => true) 0 [⟨7, none, some 1234⟩] 7
    ⟨7, none, some 1234⟩ 1234 rfl rfl
  rw [h]
  decide

/-- C3: a focus-change event whose id is absent from the current cache, or
resolves to a record whose pid is absent, performs no notifier call. -/
theorem c3_focus_no_call (ok : Nat → Bool) (n : Nat) (ws : List Window)
    (i : Nat)
    (h : findWindow ws i = none ∨
      ∃ w, findWindow ws i = some w ∧ w.pid = none) :
    (processEvent ok n ws (Event.windowFocusChanged (some i))).2.1 = [] := by
  rcases h with h | ⟨w, hf, hp⟩
  · simp [processEvent, h]
  · simp [processEvent, hf, hp]

/-- Witness for C3: an id absent from the cache, and an id whose record has no
pid; neither produces a call. -/
theorem c3_focus_no_call_witness :
    (processEvent (fun _ => true) 0 []
      (Event.windowFocusChanged (some 3))).2.1 = [] ∧
    (processEvent (fun _ => true) 0 [⟨4, none, none⟩]
      (Event.windowFocusChanged (some 4))).2.1 = [] := by
  constructor
  · exact c3_focus_no_call (fun _ => true) 0 [] 3 (Or.inl rfl)
  · exact c3_focus_no_call (fun _ => true) 0 [⟨4, none, none⟩] 4
      (Or.inr ⟨⟨4, none, none⟩, rfl, rfl⟩)

/-- C9: a focus-change event carrying no window id performs no action at all:
the cache is unchanged, no notifier call is made, and nothing is logged (so
the previously notified pid is never reset). -/
theorem c9_focus_cleared_no_action (ok : Nat → Bool) (n : Nat)
    (ws : List Window) :
    processEvent ok n ws (Event.windowFocusChanged none) = (ws, [], []) := rfl

/-- C4: a failing notifier call neither stops the loop nor changes its later
behaviour: the final cache and the entire notifier-call sequence do not depend
on which calls fail (so every later event is still processed and a later
matching focus-change still triggers a call attempt), and a failing call logs
the error message. -/
theorem c4_notifier_failure_resilient :
    (∀ (ok okk : Nat → Bool) (ws : List Window) (n m : Nat) (es : List Event),
      (runLoop ok ws n es).1 = (runLoop okk ws m es).1 ∧
      (runLoop ok ws n es).2.1 = (runLoop okk ws m es).2.1) ∧
    (∀ (ok : Nat → Bool) (n : Nat) (ws : List Window) (i : Nat) (w : Window)
      (p : Int), findWindow ws i = some w → w.pid = some p → ok n = false →
      LogMsg.errorSetForeground ∈
        (processEvent ok n ws (Event.windowFocusChanged (some i))).2.2) := by
  constructor
  · intro ok okk ws n m es
    exact runLoop_indep ok okk es ws n m
  · intro ok n ws i w p hf hp hok
    simp [processEvent, hf, hp, hok]

/-- Witness for C4: with every call failing, the calls of a concrete run
still equal those of the run where every call succeeds, and the failing call
logged the error. -/
theorem c4_notifier_failure_resilient_witness :
    (runLoop (fun _ => false) [] 0
        [Event.windowsChanged [⟨1, none, some 9⟩],
         Event.windowFocusChanged (some 1),
         Event.windowFocusChanged (some 1)]).2.1 =
      (runLoop (fun _ => true) [] 0
        [Event.windowsChanged [⟨1, none, some 9⟩],
         Event.windowFocusChanged (some 1),
         Event.windowFocusChanged (some 1)]).2.1 ∧
    LogMsg.errorSetForeground ∈
      (processEvent (fun _ => false) 0 [⟨1, none, some 9⟩]
        (Event.windowFocusChanged (some 1))).2.2 := by
  constructor
  · exact (c4_notifier_failure_resilient.1 (fun _ => false) (fun _ => true)
      [] 0 0 _).2
  · exact c4_notifier_failure_resilient.2 (fun _ => false) 0
      [⟨1, none, some 9⟩] 1 ⟨1, none, some 9⟩ 9 rfl rfl rfl

/-- The end-to-end event sequence of the spec's scenario: a snapshot with
pids 100 and 200, focus changes to both, a replacing snapshot with pid 300,
and a focus change to it. -/
def scenarioEvents : List Event :=
  [Event.windowsChanged [⟨1, none, some 100⟩, ⟨2, none, some 200⟩],
   Event.windowFocusChanged (some 1),
   Event.windowFocusChanged (some 2),
   Event.windowsChanged [⟨3, none, some 300⟩],
   Event.windowFocusChanged (some 3)]

/-- C5: the scenario produces exactly the calls 100, 200, 300 in that order
(whatever the notifier outcomes), and in general processing follows arrival
order: over `es1 ++ es2` the calls are those of `es1` followed by those of
`es2` run from the cache left by `es1` — every call happens after the cache
reflects all earlier snapshots and before any later event is processed. -/
theorem c5_ordering :
    (∀ ok : Nat → Bool,
      (runLoop ok [] 0 scenarioEvents).2.1 = [100, 200, 300]) ∧
    (∀ (ok : Nat → Bool) (es1 es2 : List Event) (ws : List Window) (n : Nat),
      (runLoop ok ws n (es1 ++ es2)).1 =
        (runLoop ok (runLoop ok ws n es1).1
          (n + (runLoop ok ws n es1).2.1.length) es2).1 ∧
      (runLoop ok ws n (es1 ++ es2)).2.1 =
        (runLoop ok ws n es1).2.1 ++
          (runLoop ok (runLoop ok ws n es1).1
            (n + (runLoop ok ws n es1).2.1.length) es2).2.1) := by
  constructor
  · intro ok
    rw [(runLoop_indep ok (fun _ => true) scenarioEvents [] 0 0).2]
    decide
  · intro ok es1 es2 ws n
    exact runLoop_append ok es1 es2 ws n

/-- C6: whenever the subscription reply arrived, the run over any finite
event stream terminates with success once the stream is exhausted, and its
notifier calls are exactly the loop's — none occur after exhaustion; since
this holds for every finite stream, exhaustion is the only way the loop
ends. -/
theorem c6_clean_termination (reply : Except String Response)
    (ok : Nat → Bool) (events : List Event) :
    (mainRun (Except.ok reply) ok events).1 = Except.ok () ∧
    (mainRun (Except.ok reply) ok events).2.1 =
      (runLoop ok [] 0 events).2.1 := ⟨rfl, rfl⟩

/-- C7: a subscription reply other than Handled logs an error message, yet
the program still proceeds into the event loop (same calls) and exits
cleanly — an unacknowledged subscription never aborts the process. -/
theorem c7_unhandled_subscription_nonfatal (reply : Except String Response)
    (ok : Nat → Bool) (events : List Event)
    (h : reply ≠ Except.ok Response.handled) :
    LogMsg.errorStreamRequest ∈ (mainRun (Except.ok reply) ok events).2.2 ∧
    (mainRun (Except.ok reply) ok events).1 = Except.ok () ∧
    (mainRun (Except.ok reply) ok events).2.1 =
      (runLoop ok [] 0 events).2.1 := by
  refine ⟨?_, rfl, rfl⟩
  rcases reply with e | r
  · simp [mainRun]
  · cases r with
    | handled => exact absurd rfl h
    | otherResponse => simp [mainRun]

/-- Witness for C7 at a concrete non-Handled reply. -/
theorem c7_unhandled_subscription_nonfatal_witness :
    LogMsg.errorStreamRequest ∈
      (mainRun (Except.ok (Except.ok Response.otherResponse))
        (fun _ => true) []).2.2 ∧
    (mainRun (Except.ok (Except.ok Response.otherResponse))
      (fun _ => true) []).1 = Except.ok () := by
  have h := c7_unhandled_subscription_nonfatal
    (Except.ok Response.otherResponse) (fun _ => true) [] (by simp)
  exact ⟨h.1, h.2.1⟩

/-- C8 counterexample: with the cache holding a window with id 1 and pid 100,
a focus-change for 1 whose notifier call fails emits the error message AND
the informational message — the source emits `info!` outside the error
branch, so the claim that a failed call yields no informational message is
false. -/
theorem c8_counterexample :
    LogMsg.errorSetForeground ∈
      (processEvent (fun _ => false) 0 [⟨1, none, some 100⟩]
        (Event.windowFocusChanged (some 1))).2.2 ∧
    LogMsg.infoSetForeground none 100 ∈
      (processEvent (fun _ => false) 0 [⟨1, none, some 100⟩]
        (Event.windowFocusChanged (some 1))).2.2 := by
  decide

/-- C8 amended: the only user-visible behaviour is log messages; the
informational message is emitted exactly when a notifier call is attempted
(the focus-change resolves to a cached record with a present pid), regardless
of whether the call succeeds; the notifier error message is emitted exactly
when such a call is attempted and fails, and the subscription error message
exactly when the reply is not Handled. -/
theorem c8_amended_logging :
    (∀ (ok : Nat → Bool) (n : Nat) (ws : List Window) (e : Event),
      ((∃ t p, LogMsg.infoSetForeground t p ∈ (processEvent ok n ws e).2.2) ↔
        (processEvent ok n ws e).2.1 ≠ []) ∧
      (LogMsg.errorSetForeground ∈ (processEvent ok n ws e).2.2 ↔
        (processEvent ok n ws e).2.1 ≠ [] ∧ ok n = false)) ∧
    (∀ (reply : Except String Response) (ok : Nat → Bool)
      (events : List Event),
      LogMsg.errorStreamRequest ∈ (mainRun (Except.ok reply) ok events).2.2 ↔
        reply ≠ Except.ok Response.handled) := by
  constructor
  · intro ok n ws e
    cases e with
    | windowsChanged w => simp [processEvent]
    | windowFocusChanged oid =>
        cases oid with
        | none => simp [processEvent]
        | some i =>
            cases hf : findWindow ws i with
            | none => simp [processEvent, hf]
            | some w =>
                cases hp : w.pid with
                | none => simp [processEvent, hf, hp]
                | some p =>
                    cases hok : ok n <;> simp [processEvent, hf, hp, hok]
    | otherEvent => simp [processEvent]
  · intro reply ok events
    rcases reply with e | r
    · simp [mainRun]
    · cases r with
      | handled =>
          refine iff_of_false ?_ (by simp)
          show LogMsg.errorStreamRequest ∉
            ([] : List LogMsg) ++ (runLoop ok [] 0 events).2.2
          rw [List.nil_append]
          exact runLoop_no_stream_log ok events [] 0
      | otherResponse => simp [mainRun]

/-- Witness for C8 amended, at a failing call and a non-Handled reply. -/
theorem c8_amended_logging_witness :
    LogMsg.errorSetForeground ∈
      (processEvent (fun _ => false) 0 [⟨2, none, some 50⟩]
        (Event.windowFocusChanged (some 2))).2.2 ∧
    LogMsg.errorStreamRequest ∈
      (mainRun (Except.ok (Except.error "eof")) (fun _ => true) []).2.2 := by
  constructor
  · exact ((c8_amended_logging.1 (fun _ => false) 0 [⟨2, none, some 50⟩]
      (Event.windowFocusChanged (some 2))).2).mpr (by decide)
  · exact (c8_amended_logging.2 (Except.error "eof") (fun _ => true) []).mpr
      (by simp)

/-- C10: the value passed to set_foreground_process is the wrapping cast
`pid as u32` of the signed pid, i.e. the pid modulo 2^32: exactly one call is
made with `toU32 p`, a non-negative pid is passed unchanged, and a negative
pid wraps to `p + 2^32` rather than being rejected or aborting. -/
theorem c10_wrapping_cast (ok : Nat → Bool) (n : Nat) (ws : List Window)
    (i : Nat) (w : Window) (p : Int) (hf : findWindow ws i = some w)
    (hp : w.pid = some p) (hlo : -(2 ^ 31) ≤ p) (hhi : p < 2 ^ 31) :
    (processEvent ok n ws (Event.windowFocusChanged (some i))).2.1 =
      [toU32 p] ∧
    (toU32 p : Int) = p % 2 ^ 32 ∧
    (0 ≤ p → (toU32 p : Int) = p) ∧
    (p < 0 → (toU32 p : Int) = p + 2 ^ 32) := by
  have h32 : (2 : Int) ^ 32 = 4294967296 := by norm_num
  have h31 : (2 : Int) ^ 31 = 2147483648 := by norm_num
  have hmod : (toU32 p : Int) = p % 2 ^ 32 := by
    unfold toU32
    rw [Int.toNat_of_nonneg (Int.emod_nonneg p (by norm_num))]
  refine ⟨by simp [processEvent, hf, hp], hmod, ?_, ?_⟩
  · intro hpos
    rw [hmod, h32]
    rw [h31] at hhi
    omega
  · intro hneg
    rw [hmod, h32]
    rw [h31] at hlo
    omega

/-- Witness for C10 at pid -1: one call carrying `toU32 (-1)`, which wraps to
`-1 + 2^32 = 4294967295`. -/
theorem c10_wrapping_cast_witness :
    (processEvent (fun _ => true) 0 [⟨5, none, some (-1)⟩]
      (Event.windowFocusChanged (some 5))).2.1 = [toU32 (-1)] ∧
    (toU32 (-1) : Int) = -1 + 2 ^ 32 := by
  have h := c10_wrapping_cast (fun _ => true) 0 [⟨5, none, some (-1)⟩] 5
    ⟨5, none, some (-1)⟩ (-1) rfl rfl (by norm_num) (by norm_num)
  exact ⟨h.1, h.2.2.2 (by norm_num)⟩

end SchedulerBridge
